import Mathlib

/-!
Shallow embedding of the core of rowjay/url-shortening-service:
the short-code generator (`internal/utils/shortcode.go`), the input
validator (`internal/validator`), the uniqueness-resolution and CRUD
orchestration of the service layer (`internal/services/url_service.go`),
and the existence-check adapter of the repository layer
(`internal/repository/url_repository.go`).

Go `error` values built from `internal/errors/errors.go` are embedded as
`GoErr`; the persistence collaborator (a remote PocketBase store accessed
over HTTP) is embedded as a state-threading record of functions `Repo σ`,
so that a run of a service operation both yields its Go return value and
threads the store state, making the sequence of persistence calls
observable by choosing `σ`.  The cryptographically secure random source
`crypto/rand` is embedded as a stream `Nat → Except GoErr (Fin 62)`: call
`i` either fails (the source is unavailable) or yields the value that
`rand.Int(rand.Reader, big.NewInt(62))` returned, which that function
guarantees to lie in `[0, 62)`.
-/

namespace UrlShortener

/-- Error kinds of `internal/errors/errors.go` (`ErrorCode`). -/
inductive ErrorCode where
  | notFound
  | duplicate
  | validation
  | internal
  | badRequest
deriving DecidableEq, Repr

/-- Embedding of Go `error` values as they occur in this service:
`svc` is a `*ServiceError` from `internal/errors/errors.go` (operation,
kind, message, optional wrapped cause), and `ext` is any other `error`
(transport failure, random-source failure, parse error), identified by an
uninterpreted tag. -/
inductive GoErr where
  | svc (op : String) (code : ErrorCode) (message : String) (cause : Option GoErr)
  | ext (tag : String)
deriving Repr

/-- Constructor `NewNotFoundError` of `internal/errors/errors.go`. -/
def NewNotFoundError (op message : String) : GoErr :=
  .svc op .notFound message none

/-- Constructor `NewValidationError` of `internal/errors/errors.go`. -/
def NewValidationError (op message : String) (cause : Option GoErr) : GoErr :=
  .svc op .validation message cause

/-- Constructor `NewDuplicateError` of `internal/errors/errors.go`. -/
def NewDuplicateError (op message : String) : GoErr :=
  .svc op .duplicate message none

/-- Constructor `NewInternalError` of `internal/errors/errors.go`. -/
def NewInternalError (op message : String) (cause : Option GoErr) : GoErr :=
  .svc op .internal message cause

/-- The kind of a `GoErr`, when it is a `ServiceError`. -/
def GoErr.errorCode : GoErr → Option ErrorCode
  | .svc _ c _ _ => some c
  | .ext _ => none

/-- The message of a `GoErr`, when it is a `ServiceError`. -/
def GoErr.message : GoErr → Option String
  | .svc _ _ m _ => some m
  | .ext _ => none

/-- Constant `DefaultShortCodeLength` of `internal/constants`. -/
def DefaultShortCodeLength : Nat := 6

/-- Constant `MaxRetries` of `internal/constants`.  Loaded into the
configuration by `internal/config/config.go` but never read by the
service layer, whose retry loop hard-codes its own bound. -/
def MaxRetries : Nat := 5

/-- Constant `MaxURLLength` of `internal/constants`. -/
def MaxURLLength : Nat := 2048

/-- Variable `BlockedDomains` of `internal/constants`. -/
def BlockedDomains : List String := ["malware.com", "phishing.com"]

/-- Constant `base62Chars` of `internal/utils/shortcode.go`. -/
def base62Chars : String :=
  "0123456789abcdefghijklmnopqrstuvwxyzABCDEFGHIJKLMNOPQRSTUVWXYZ"

/-- Character `v` of the base62 alphabet, as selected by
`base62Chars[num.Int64()]` in `GenerateShortCode`.  The index is always in
range because `rand.Int(rand.Reader, 62)` yields a value below 62. -/
def base62At (v : Fin 62) : Char := base62Chars.data.getD v.1 ' '

/-- Loop body of `utils.GenerateShortCode`: characters at stream positions
`i, i+1, ...` for the `n` remaining slots, aborting at the first failure of
the random source, exactly as the Go loop returns the first `rand.Int`
error. -/
def generateCharsFrom (rand : Nat → Except GoErr (Fin 62)) :
    Nat → Nat → Except GoErr (List Char)
  | _, 0 => .ok []
  | i, n + 1 =>
    match rand i with
    | .error e => .error e
    | .ok v =>
      match generateCharsFrom rand (i + 1) n with
      | .error e => .error e
      | .ok cs => .ok (base62At v :: cs)

/-- Function `GenerateShortCode` of `internal/utils/shortcode.go`: a random
base62 string of the given length, or the first error of the random
source. -/
def GenerateShortCode (length : Nat) (rand : Nat → Except GoErr (Fin 62)) :
    Except GoErr String :=
  match generateCharsFrom rand 0 length with
  | .error e => .error e
  | .ok cs => .ok (String.mk cs)

/-- Go `len` on a string counts UTF-8 bytes. -/
def goLen (s : String) : Nat := s.utf8ByteSize

/-- Scheme and host of a parsed URL: the two fields of Go's `url.URL` that
`validator.ValidateURL` reads. -/
structure GoURL where
  scheme : String
  host : String
deriving DecidableEq, Repr

/-- Character class test of `getScheme` in Go `net/url`: ASCII letter. -/
def isSchemeAlpha (c : Char) : Bool :=
  ('a' ≤ c && c ≤ 'z') || ('A' ≤ c && c ≤ 'Z')

/-- Character class test of `getScheme` in Go `net/url`: digit or one of
`+ - .`, legal in a scheme except at its first position. -/
def isSchemeExtra (c : Char) : Bool :=
  ('0' ≤ c && c ≤ '9') || c = '+' || c = '-' || c = '.'

/-- Model of `getScheme` from Go `net/url` (standard library): scan for a
`:` preceded only by scheme characters starting with a letter.  Yields the
scheme (empty when absent) and the rest of the input; fails only when the
`:` comes first ("missing protocol scheme").  `orig` is the whole input,
returned untouched when no scheme is found. -/
def getSchemeGo (orig : List Char) : Nat → List Char → Except GoErr (List Char × List Char)
  | _, [] => .ok ([], orig)
  | i, c :: cs =>
    if isSchemeAlpha c then getSchemeGo orig (i + 1) cs
    else if isSchemeExtra c then
      if i = 0 then .ok ([], orig) else getSchemeGo orig (i + 1) cs
    else if c = ':' then
      if i = 0 then .error (.ext "missing protocol scheme")
      else .ok (orig.take i, cs)
    else .ok ([], orig)

/-- Go `unicode.ToLower` restricted to ASCII, the only characters
appearing in schemes, hosts and the blocked-domain list of this
development: an upper-case ASCII letter moves down by 32, all else is
unchanged. -/
def goToLowerChar (c : Char) : Char :=
  if 'A' ≤ c ∧ c ≤ 'Z' then Char.ofNat (c.toNat + 32) else c

/-- Go `strings.ToLower`: lower-case every character. -/
def goToLower (s : String) : String := String.mk (s.data.map goToLowerChar)

/-- A control byte in the sense of `stringContainsCTLByte` in Go
`net/url`: below space or DEL. -/
def isCTLByte (c : Char) : Bool := c < ' ' || c = Char.ofNat 127

/-- Model of Go `net/url`'s `Parse` (standard library, outside this
repository), restricted to the scheme and host fields read by the
validator.  Faithful to `parse(rawURL, false)` for inputs free of
percent-escapes and exotic authority characters, which covers every URL in
this development: reject control bytes; extract and lower-case the scheme;
drop fragment and query; when the remainder starts with `//`, the
authority runs to the next `/`, and the host is the authority with any
`user@` part removed; otherwise the host is empty.  Host character
validation and percent-decoding of `parseHost` are not modelled. -/
def goUrlParse (rawURL : String) : Except GoErr GoURL :=
  if rawURL.data.any isCTLByte then
    .error (.ext "net/url: invalid control character in URL")
  else
    match getSchemeGo rawURL.data 0 rawURL.data with
    | .error e => .error e
    | .ok (schemeChars, rest) =>
      let scheme := goToLower (String.mk schemeChars)
      let rest := rest.takeWhile (fun c => c ≠ '#')
      let rest := rest.takeWhile (fun c => c ≠ '?')
      match rest with
      | '/' :: '/' :: afterSlashes =>
        let authority := afterSlashes.takeWhile (fun c => c ≠ '/')
        let host :=
          if authority.contains '@' then
            (authority.reverse.takeWhile (fun c => c ≠ '@')).reverse
          else authority
        .ok { scheme := scheme, host := String.mk host }
      | _ => .ok { scheme := scheme, host := "" }

/-- Method `isDomainBlocked` of `internal/validator`: lower-case the host
and test exact membership in the static blocked-domain list
(`slices.Contains`). -/
def isDomainBlocked (domain : String) : Bool :=
  BlockedDomains.contains (goToLower domain)

/-- Method `ValidateURL` of `internal/validator`, parameterised by the URL
parser so that theorems can quantify over the behaviour of `url.Parse`:
length gate, parse gate, scheme gate, blocked-domain gate, in that
order. -/
def ValidateURLWith (parse : String → Except GoErr GoURL) (rawURL : String) :
    Option GoErr :=
  if goLen rawURL > MaxURLLength then
    some (NewValidationError "validator.ValidateURL" "URL too long" none)
  else
    match parse rawURL with
    | .error e =>
      some (NewValidationError "validator.ValidateURL" "invalid URL format" (some e))
    | .ok parsed =>
      if parsed.scheme ≠ "http" ∧ parsed.scheme ≠ "https" then
        some (NewValidationError "validator.ValidateURL"
          "only HTTP and HTTPS URLs are allowed" none)
      else if isDomainBlocked parsed.host then
        some (NewValidationError "validator.ValidateURL" "domain is blocked" none)
      else
        none

/-- Method `ValidateURL` of `internal/validator` with the `net/url` parser
in place. -/
def ValidateURL (rawURL : String) : Option GoErr :=
  ValidateURLWith goUrlParse rawURL

/-- Function `isAlphaNumeric` of `internal/validator`. -/
def isAlphaNumeric (char : Char) : Bool :=
  ('a' ≤ char && char ≤ 'z') || ('A' ≤ char && char ≤ 'Z') ||
    ('0' ≤ char && char ≤ '9')

/-- Method `ValidateShortCode` of `internal/validator`: length between 4
and 20 bytes, every character alphanumeric.  The Go loop returns the
character error at the first offending rune; since the returned value does
not depend on which rune offends, the loop is embedded as `List.all`. -/
def ValidateShortCode (code : String) : Option GoErr :=
  if goLen code < 4 ∨ goLen code > 20 then
    some (NewValidationError "validator.ValidateShortCode"
      "short code must be between 4 and 20 characters" none)
  else if code.data.all isAlphaNumeric then
    none
  else
    some (NewValidationError "validator.ValidateShortCode"
      "short code can only contain alphanumeric characters" none)

/-- Record type `models.ShortURL` of `internal/models/url.go`.  Timestamps
are embedded as integers; the Go zero value `time.Time{}` is `0`. -/
structure ShortURL where
  id : String
  url : String
  shortCode : String
  accessCount : Int
  created : Int
  updated : Int
deriving DecidableEq, Repr

/-- Fields assigned by `repository.Create` into the record it was handed:
`shortURL.ID`, `shortURL.Created`, `shortURL.Updated` from the PocketBase
response.  `Create` mutates no other field of the record. -/
structure CreateAssigned where
  id : String
  created : Int
  updated : Int
deriving DecidableEq, Repr

/-- The persistence collaborator `repository.URLRepository`, embedded as a
record of state-threading functions over an abstract store state `σ`:
each operation consumes a state and yields its Go return value with the
successor state.  Choosing `σ` makes the persistence call sequence of a
service run observable (for example `σ := Nat` counting calls). -/
structure Repo (σ : Type) where
  create : σ → ShortURL → Except GoErr CreateAssigned × σ
  getByShortCode : σ → String → Except GoErr ShortURL × σ
  update : σ → String → String → Except GoErr ShortURL × σ
  delete : σ → String → Except GoErr Unit × σ
  incrementAccessCount : σ → String → Except GoErr Unit × σ
  existsByShortCode : σ → String → Except GoErr Bool × σ

/-- Method `ExistsByShortCode` of
`internal/repository/url_repository.go`, over an abstract
`GetByShortCode`: a lookup error whose first `*ServiceError` in the chain
(found by `errors.As`, which inspects the outermost error first) has kind
`NotFound` becomes `(false, nil)`; any other lookup error propagates; a
successful lookup yields `true` (the record pointer is never nil on
success). -/
def ExistsByShortCode {σ : Type}
    (getByShortCode : σ → String → Except GoErr ShortURL × σ)
    (s : σ) (shortCode : String) : Except GoErr Bool × σ :=
  match getByShortCode s shortCode with
  | (.error e, s') =>
    match e with
    | .svc _ code _ _ =>
      if code = .notFound then (.ok false, s') else (.error e, s')
    | .ext _ => (.error e, s')
  | (.ok _, s') => (.ok true, s')

/-- Request type `dto.CreateURLRequest`. -/
structure CreateURLRequest where
  url : String
  customCode : Option String
deriving DecidableEq, Repr

/-- Response type `dto.CreateURLResponse`. -/
structure CreateURLResponse where
  id : String
  url : String
  shortCode : String
  createdAt : Int
  updatedAt : Int
deriving DecidableEq, Repr

/-- Response type `dto.GetURLResponse`.  `service.GetOriginalURL` leaves
`AccessCount` at its zero value. -/
structure GetURLResponse where
  id : String
  url : String
  shortCode : String
  accessCount : Int
  createdAt : Int
  updatedAt : Int
deriving DecidableEq, Repr

/-- Response type `dto.UpdateURLResponse`. -/
structure UpdateURLResponse where
  id : String
  url : String
  shortCode : String
  accessCount : Int
  createdAt : Int
  updatedAt : Int
deriving DecidableEq, Repr

/-- Response type `dto.GetStatsResponse`. -/
structure GetStatsResponse where
  id : String
  url : String
  shortCode : String
  accessCount : Int
  createdAt : Int
  updatedAt : Int
deriving DecidableEq, Repr

/-- Loop of `service.generateUniqueShortCode` (`for i := 0; i < 10; i++`):
attempt index `i` draws stream positions `6*i .. 6*i+5`; a failure of the
generator is wrapped as an `InternalError`; a failure of the existence
check propagates as is; a free code is returned; an exhausted loop fails
with the `after 10 attempts` `InternalError`. -/
def generateUniqueShortCodeAux {σ : Type} (repo : Repo σ)
    (rand : Nat → Except GoErr (Fin 62)) :
    Nat → Nat → σ → Except GoErr String × σ
  | _, 0, s =>
    (.error (NewInternalError "service.generateUniqueShortCode"
      "failed to generate unique code after 10 attempts" none), s)
  | i, fuel + 1, s =>
    match GenerateShortCode 6 (fun j => rand (6 * i + j)) with
    | .error e =>
      (.error (NewInternalError "service.generateUniqueShortCode"
        "failed to generate short code" (some e)), s)
    | .ok code =>
      match repo.existsByShortCode s code with
      | (.error e, s') => (.error e, s')
      | (.ok b, s') =>
        if b then generateUniqueShortCodeAux repo rand (i + 1) fuel s'
        else (.ok code, s')

/-- Method `generateUniqueShortCode` of
`internal/services/url_service.go`: ten generate-and-check attempts. -/
def generateUniqueShortCode {σ : Type} (repo : Repo σ)
    (rand : Nat → Except GoErr (Fin 62)) (s : σ) : Except GoErr String × σ :=
  generateUniqueShortCodeAux repo rand 0 10 s

/-- Method `CreateShortURL` of `internal/services/url_service.go`:
validate the URL; resolve the short code (custom path: shape validation,
then existence check translated to `InternalError` on failure and
`DuplicateError` on collision; auto path: `generateUniqueShortCode`, its
error wrapped as `InternalError`); build the record with access count 0;
delegate to persistence `Create`; assemble the response from the persisted
record. -/
def CreateShortURL {σ : Type} (repo : Repo σ)
    (rand : Nat → Except GoErr (Fin 62)) (s : σ) (req : CreateURLRequest) :
    Except GoErr CreateURLResponse × σ :=
  match ValidateURL req.url with
  | some e => (.error e, s)
  | none =>
    let resolved : Except GoErr String × σ :=
      match req.customCode with
      | some cc =>
        match ValidateShortCode cc with
        | some e => (.error e, s)
        | none =>
          match repo.existsByShortCode s cc with
          | (.error e, s') =>
            (.error (NewInternalError "service.CreateShortURL"
              "failed to check code existence" (some e)), s')
          | (.ok true, s') =>
            (.error (NewDuplicateError "service.CreateShortURL"
              "short code already exists"), s')
          | (.ok false, s') => (.ok cc, s')
      | none =>
        match generateUniqueShortCode repo rand s with
        | (.error e, s') =>
          (.error (NewInternalError "service.CreateShortURL"
            "failed to generate short code" (some e)), s')
        | (.ok code, s') => (.ok code, s')
    match resolved with
    | (.error e, s') => (.error e, s')
    | (.ok shortCode, s') =>
      let shortURL : ShortURL :=
        { id := "", url := req.url, shortCode := shortCode,
          accessCount := 0, created := 0, updated := 0 }
      match repo.create s' shortURL with
      | (.error e, s'') => (.error e, s'')
      | (.ok assigned, s'') =>
        (.ok { id := assigned.id, url := shortURL.url,
               shortCode := shortURL.shortCode,
               createdAt := assigned.created,
               updatedAt := assigned.updated }, s'')

/-- A store over state `Nat` whose existence check consults the pure
predicate `e` and counts its own invocations, so that the number of
generate-plus-check cycles of a resolver run is the state increase.  With
`e` constantly true this is the store that reports every code as existing.
The other operations are never reached by the resolver. -/
def pureExistsStore (e : String → Bool) : Repo Nat :=
  { create := fun s _ => (.error (.ext "pureExistsStore.create"), s),
    getByShortCode := fun s _ => (.error (.ext "pureExistsStore.get"), s),
    update := fun s _ _ => (.error (.ext "pureExistsStore.update"), s),
    delete := fun s _ => (.error (.ext "pureExistsStore.delete"), s),
    incrementAccessCount := fun s _ => (.error (.ext "pureExistsStore.incr"), s),
    existsByShortCode := fun s c => (.ok (e c), s + 1) }

/-- A store over a counter state that behaves like a fresh empty
PocketBase collection: every lookup answers the repository's
`NotFoundError`, the existence check reports free, and create succeeds
with fixed assigned fields.  Lookups and the existence check bump the
counter by 1, create by 100, so the counter reveals which persistence
calls a service run performed. -/
def emptyStore : Repo Nat :=
  { create := fun s _ => (.ok { id := "rec1", created := 5, updated := 6 }, s + 100),
    getByShortCode := fun s _ =>
      (.error (NewNotFoundError "repository.GetByShortCode" "short URL not found"), s + 1),
    update := fun s _ _ =>
      (.error (NewNotFoundError "repository.GetByShortCode" "short URL not found"), s + 1),
    delete := fun s _ =>
      (.error (NewNotFoundError "repository.GetByShortCode" "short URL not found"), s + 1),
    incrementAccessCount := fun s _ => (.ok (), s + 1),
    existsByShortCode := fun s _ => (.ok false, s + 1) }

/-- The character the generator derives from stream position `k` when the
random source succeeds there. -/
def codeCharAt (rand : Nat → Except GoErr (Fin 62)) (k : Nat) : Char :=
  base62At ((rand k).toOption.getD ⟨0, by omega⟩)

/-- The six-character code that attempt `i` of the resolver generates when
the random source never fails: base62 characters at stream positions
`6*i .. 6*i+5`. -/
def codeAt (rand : Nat → Except GoErr (Fin 62)) (i : Nat) : String :=
  String.mk [codeCharAt rand (6 * i), codeCharAt rand (6 * i + 1),
    codeCharAt rand (6 * i + 2), codeCharAt rand (6 * i + 3),
    codeCharAt rand (6 * i + 4), codeCharAt rand (6 * i + 5)]

/-- Method `GetOriginalURL` of `internal/services/url_service.go`: look
the code up, bump the access count (failure wrapped as `InternalError`),
and answer from the looked-up record. -/
def GetOriginalURL {σ : Type} (repo : Repo σ) (s : σ) (shortCode : String) :
    Except GoErr GetURLResponse × σ :=
  match repo.getByShortCode s shortCode with
  | (.error e, s') => (.error e, s')
  | (.ok shortURL, s') =>
    match repo.incrementAccessCount s' shortCode with
    | (.error e, s'') =>
      (.error (NewInternalError "service.GetOriginalURL"
        "failed to increment access count" (some e)), s'')
    | (.ok _, s'') =>
      (.ok { id := shortURL.id, url := shortURL.url,
             shortCode := shortURL.shortCode, accessCount := 0,
             createdAt := shortURL.created,
             updatedAt := shortURL.updated }, s'')

/-- Request type `dto.UpdateURLRequest`. -/
structure UpdateURLRequest where
  url : String
deriving DecidableEq, Repr

/-- Method `UpdateShortURL` of `internal/services/url_service.go`:
validate the replacement URL, then delegate to persistence `Update` with
the short code exactly as supplied. -/
def UpdateShortURL {σ : Type} (repo : Repo σ) (s : σ) (shortCode : String)
    (req : UpdateURLRequest) : Except GoErr UpdateURLResponse × σ :=
  match ValidateURL req.url with
  | some e => (.error e, s)
  | none =>
    match repo.update s shortCode req.url with
    | (.error e, s') => (.error e, s')
    | (.ok updatedURL, s') =>
      (.ok { id := updatedURL.id, url := updatedURL.url,
             shortCode := updatedURL.shortCode,
             accessCount := updatedURL.accessCount,
             createdAt := updatedURL.created,
             updatedAt := updatedURL.updated }, s')

/-- Method `DeleteShortURL` of `internal/services/url_service.go`: a bare
delegation to persistence `Delete`. -/
def DeleteShortURL {σ : Type} (repo : Repo σ) (s : σ) (shortCode : String) :
    Except GoErr Unit × σ :=
  repo.delete s shortCode

/-- Method `GetStatistics` of `internal/services/url_service.go`: look the
code up and answer with the record including its access count. -/
def GetStatistics {σ : Type} (repo : Repo σ) (s : σ) (shortCode : String) :
    Except GoErr GetStatsResponse × σ :=
  match repo.getByShortCode s shortCode with
  | (.error e, s') => (.error e, s')
  | (.ok shortURL, s') =>
    (.ok { id := shortURL.id, url := shortURL.url,
           shortCode := shortURL.shortCode,
           accessCount := shortURL.accessCount,
           createdAt := shortURL.created,
           updatedAt := shortURL.updated }, s')

/-! Helper lemmas shared by the claim theorems. -/

/-- A string never has more characters than UTF-8 bytes, so Go's byte
`len` dominates the character count. -/
theorem length_le_goLen (s : String) : s.length ≤ goLen s := by
  cases s with
  | mk l =>
    show l.length ≤ (String.mk l).utf8ByteSize
    induction l with
    | nil => simp
    | cons c cs ih =>
      have hc := Char.utf8Size_pos c
      simp [String.utf8ByteSize, String.utf8ByteSize.go] at *
      omega

/-- Every character the generator selects belongs to the base62
alphabet. -/
theorem base62At_mem (v : Fin 62) : base62At v ∈ base62Chars.data := by
  have hlen : base62Chars.data.length = 62 := by decide
  have h : v.1 < base62Chars.data.length := by omega
  rw [base62At, List.getD_eq_getElem _ _ h]
  exact List.getElem_mem h

/-- When the random source succeeds at the `n` stream positions starting
at `i`, the generator loop yields `n` characters of the base62
alphabet. -/
theorem generateCharsFrom_ok (rand : Nat → Except GoErr (Fin 62)) :
    ∀ (n i : Nat), (∀ j, j < n → ∃ v, rand (i + j) = .ok v) →
      ∃ cs, generateCharsFrom rand i n = .ok cs ∧ cs.length = n ∧
        ∀ c ∈ cs, c ∈ base62Chars.data := by
  intro n
  induction n with
  | zero => exact fun i _ => ⟨[], rfl, rfl, by simp⟩
  | succ n ih =>
    intro i h
    obtain ⟨v, hv⟩ := h 0 (Nat.succ_pos n)
    rw [Nat.add_zero] at hv
    obtain ⟨cs, hcs, hlen, hmem⟩ := ih (i + 1) (fun j hj => by
      have hx := h (j + 1) (Nat.succ_lt_succ hj)
      have harith : i + (j + 1) = i + 1 + j := by omega
      rw [harith] at hx
      exact hx)
    refine ⟨base62At v :: cs, ?_, by simp [hlen], ?_⟩
    · simp [generateCharsFrom, hv, hcs]
    · intro c hc
      rcases List.mem_cons.mp hc with h1 | h2
      · rw [h1]; exact base62At_mem v
      · exact hmem c h2

/-- C4: for every non-negative length `L`, when the secure random source
does not fail at the first `L` positions, `GenerateShortCode L` returns a
string of length exactly `L` whose every character belongs to the
62-character alphabet `[0-9a-zA-Z]`; and `GenerateShortCode 0` returns the
empty string, not an error. -/
theorem generateShortCode_length_alphabet (L : Nat)
    (rand : Nat → Except GoErr (Fin 62))
    (h : ∀ i, i < L → ∃ v, rand i = .ok v) :
    (∃ s, GenerateShortCode L rand = .ok s ∧ s.length = L ∧
      ∀ c ∈ s.data, c ∈ base62Chars.data) ∧
    GenerateShortCode 0 rand = .ok "" := by
  constructor
  · obtain ⟨cs, hcs, hlen, hmem⟩ := generateCharsFrom_ok rand L 0 (fun j hj => by
      have hx := h j hj
      rwa [Nat.zero_add])
    exact ⟨String.mk cs, by simp [GenerateShortCode, hcs], by simpa using hlen, hmem⟩
  · rfl

/-- Witness for C4 at `L = 3` with the constant random source `5`:
the three hypotheses are discharged concretely. -/
theorem generateShortCode_length_alphabet_witness :
    ∃ s, GenerateShortCode 3 (fun _ => .ok (⟨5, by omega⟩ : Fin 62)) = .ok s ∧
      s.length = 3 ∧ ∀ c ∈ s.data, c ∈ base62Chars.data :=
  (generateShortCode_length_alphabet 3 (fun _ => .ok (⟨5, by omega⟩ : Fin 62))
    (fun _ _ => ⟨⟨5, by omega⟩, rfl⟩)).1

/-- C8: `ValidateShortCode` fails when the length is below 4 or above 20,
fails when some character falls outside `[0-9a-zA-Z]`, succeeds otherwise;
concretely it rejects `"ab"`, a 21-character code and `"abc-123"`, and
accepts `"abc123"` and `"A1b2C3"`. -/
theorem validateShortCode_rules :
    (∀ code : String, goLen code < 4 ∨ goLen code > 20 →
      ValidateShortCode code = some (NewValidationError "validator.ValidateShortCode"
        "short code must be between 4 and 20 characters" none)) ∧
    (∀ code : String, 4 ≤ goLen code → goLen code ≤ 20 →
      (∃ c ∈ code.data, isAlphaNumeric c = false) →
      ValidateShortCode code = some (NewValidationError "validator.ValidateShortCode"
        "short code can only contain alphanumeric characters" none)) ∧
    (∀ code : String, 4 ≤ goLen code → goLen code ≤ 20 →
      (∀ c ∈ code.data, isAlphaNumeric c = true) →
      ValidateShortCode code = none) ∧
    ValidateShortCode "ab" = some (NewValidationError "validator.ValidateShortCode"
      "short code must be between 4 and 20 characters" none) ∧
    ValidateShortCode "aaaaaaaaaaaaaaaaaaaaa" =
      some (NewValidationError "validator.ValidateShortCode"
        "short code must be between 4 and 20 characters" none) ∧
    ValidateShortCode "abc-123" = some (NewValidationError "validator.ValidateShortCode"
      "short code can only contain alphanumeric characters" none) ∧
    ValidateShortCode "abc123" = none ∧
    ValidateShortCode "A1b2C3" = none := by
  refine ⟨?_, ?_, ?_, rfl, rfl, rfl, rfl, rfl⟩
  · intro code hlen
    simp only [ValidateShortCode]
    rw [if_pos hlen]
  · intro code h4 h20 hbad
    simp only [ValidateShortCode]
    rw [if_neg (by omega)]
    obtain ⟨c, hc, hna⟩ := hbad
    rw [if_neg]
    intro hall
    rw [List.all_eq_true] at hall
    exact absurd (hall c hc) (by simp [hna])
  · intro code h4 h20 hgood
    simp only [ValidateShortCode]
    rw [if_neg (by omega), if_pos]
    rw [List.all_eq_true]
    exact fun c hc => hgood c hc

/-- Witness for C8: the three conditional branches instantiated at
`"abcd"` (all alphanumeric, length in range), `"abc"` (too short) and
`"ab!d"` (bad character). -/
theorem validateShortCode_rules_witness :
    ValidateShortCode "abc" = some (NewValidationError "validator.ValidateShortCode"
      "short code must be between 4 and 20 characters" none) ∧
    ValidateShortCode "ab!d" = some (NewValidationError "validator.ValidateShortCode"
      "short code can only contain alphanumeric characters" none) ∧
    ValidateShortCode "abcd" = none :=
  ⟨validateShortCode_rules.1 "abc" (by decide),
   validateShortCode_rules.2.1 "ab!d" (by decide) (by decide) ⟨'!', by decide, by decide⟩,
   validateShortCode_rules.2.2.1 "abcd" (by decide) (by decide) (by decide)⟩

/-- C5: for every URL that passes the length, parse and scheme gates,
`ValidateURL` fails with reason `domain is blocked` exactly when the
parsed host, lower-cased, is string-equal to an entry of the static
blocked-domain list; consequently `http://sub.malware.com/x`, whose host
is a subdomain of the blocked `malware.com`, is accepted. -/
theorem validateURL_blocked_iff :
    (∀ (parse : String → Except GoErr GoURL) (raw : String) (p : GoURL),
      goLen raw ≤ MaxURLLength → parse raw = .ok p →
      (p.scheme = "http" ∨ p.scheme = "https") →
      (ValidateURLWith parse raw =
          some (NewValidationError "validator.ValidateURL" "domain is blocked" none) ↔
        goToLower p.host ∈ BlockedDomains)) ∧
    ValidateURL "http://sub.malware.com/x" = none := by
  constructor
  · intro parse raw p hlen hparse hscheme
    have hs : ¬ (p.scheme ≠ "http" ∧ p.scheme ≠ "https") := by tauto
    have hmemiff : isDomainBlocked p.host = true ↔ goToLower p.host ∈ BlockedDomains := by
      simp [isDomainBlocked]
    simp only [ValidateURLWith]
    rw [if_neg (by omega), hparse]
    show (if p.scheme ≠ "http" ∧ p.scheme ≠ "https" then _ else _) = _ ↔ _
    rw [if_neg hs]
    by_cases hb : isDomainBlocked p.host
    · rw [if_pos hb]
      exact ⟨fun _ => hmemiff.mp hb, fun _ => rfl⟩
    · rw [if_neg hb]
      constructor
      · intro hnone
        exact absurd hnone (by simp)
      · intro hmem
        exact absurd (hmemiff.mpr hmem) hb
  · rfl

/-- Witness for C5: the blocked-domain characterisation instantiated with
the `net/url` parser at `http://malware.com/x`, whose host is literally
`malware.com`. -/
theorem validateURL_blocked_iff_witness :
    ValidateURL "http://malware.com/x" =
        some (NewValidationError "validator.ValidateURL" "domain is blocked" none) ↔
      goToLower "malware.com" ∈ BlockedDomains :=
  validateURL_blocked_iff.1 goUrlParse "http://malware.com/x"
    { scheme := "http", host := "malware.com" } (by decide) rfl (Or.inl rfl)

/-- C6 amended: every string within the length limit on which the URL
parser fails is rejected with reason `invalid URL format`; but
`"not-a-url"` is not such a string: Go's `url.Parse` accepts it with an
empty scheme, so it is rejected with reason
`only HTTP and HTTPS URLs are allowed` instead. -/
theorem validateURL_parse_failure :
    (∀ (parse : String → Except GoErr GoURL) (raw : String) (e : GoErr),
      goLen raw ≤ MaxURLLength → parse raw = .error e →
      ValidateURLWith parse raw =
        some (NewValidationError "validator.ValidateURL" "invalid URL format" (some e))) ∧
    ValidateURL "not-a-url" =
      some (NewValidationError "validator.ValidateURL"
        "only HTTP and HTTPS URLs are allowed" none) := by
  constructor
  · intro parse raw e hlen hparse
    simp only [ValidateURLWith]
    rw [if_neg (by omega), hparse]
  · rfl

/-- Witness for C6 (amended): the parse-failure branch instantiated with
the `net/url` parser at `"://foo"`, where `getScheme` fails with
`missing protocol scheme`. -/
theorem validateURL_parse_failure_witness :
    ValidateURLWith goUrlParse "://foo" =
      some (NewValidationError "validator.ValidateURL" "invalid URL format"
        (some (.ext "missing protocol scheme"))) :=
  validateURL_parse_failure.1 goUrlParse "://foo" (.ext "missing protocol scheme")
    (by decide) rfl

/-- Counterexample to C6 as stated: `validateURL "not-a-url"` does fail,
but its reason is `only HTTP and HTTPS URLs are allowed`, not
`invalid URL format`, because Go's `url.Parse` parses `"not-a-url"`
successfully with an empty scheme. -/
theorem validateURL_notAUrl_reason_not_format :
    (ValidateURL "not-a-url").bind GoErr.message =
        some "only HTTP and HTTPS URLs are allowed" ∧
    (ValidateURL "not-a-url").bind GoErr.message ≠ some "invalid URL format" := by
  exact ⟨rfl, by decide⟩

/-- C7: `ValidateURL` rejects every input longer than 2048 characters
with reason `URL too long`; rejects every parseable URL within the length
limit whose scheme is neither `http` nor `https` with reason
`only HTTP and HTTPS URLs are allowed`, concretely `ftp://example.com`;
and accepts `https://example.com/path`. -/
theorem validateURL_length_scheme :
    (∀ raw : String, 2048 < raw.length →
      ValidateURL raw =
        some (NewValidationError "validator.ValidateURL" "URL too long" none)) ∧
    (∀ (parse : String → Except GoErr GoURL) (raw : String) (p : GoURL),
      goLen raw ≤ MaxURLLength → parse raw = .ok p →
      p.scheme ≠ "http" → p.scheme ≠ "https" →
      ValidateURLWith parse raw =
        some (NewValidationError "validator.ValidateURL"
          "only HTTP and HTTPS URLs are allowed" none)) ∧
    ValidateURL "ftp://example.com" =
      some (NewValidationError "validator.ValidateURL"
        "only HTTP and HTTPS URLs are allowed" none) ∧
    ValidateURL "https://example.com/path" = none := by
  refine ⟨?_, ?_, rfl, rfl⟩
  · intro raw hlen
    have hb := length_le_goLen raw
    simp only [ValidateURL, ValidateURLWith]
    rw [if_pos (by simp only [MaxURLLength]; omega)]
  · intro parse raw p hlen hparse h1 h2
    simp only [ValidateURLWith]
    rw [if_neg (by omega), hparse]
    simp only [Except.ok.injEq]
    rw [if_pos ⟨h1, h2⟩]

/-- Witness for C7: the scheme branch instantiated with the `net/url`
parser at `ftp://example.com`. -/
theorem validateURL_length_scheme_witness :
    ValidateURLWith goUrlParse "ftp://example.com" =
      some (NewValidationError "validator.ValidateURL"
        "only HTTP and HTTPS URLs are allowed" none) :=
  validateURL_length_scheme.2.1 goUrlParse "ftp://example.com"
    { scheme := "ftp", host := "example.com" } (by decide) rfl
    (by decide) (by decide)

/-- When the random source never fails, attempt `i` of the resolver
generates exactly the code `codeAt rand i`. -/
theorem generate_eq_codeAt (rand : Nat → Except GoErr (Fin 62)) (i : Nat)
    (h : ∀ j, ∃ v, rand j = .ok v) :
    GenerateShortCode 6 (fun j => rand (6 * i + j)) = .ok (codeAt rand i) := by
  obtain ⟨v0, h0⟩ := h (6 * i)
  obtain ⟨v1, h1⟩ := h (6 * i + 1)
  obtain ⟨v2, h2⟩ := h (6 * i + 2)
  obtain ⟨v3, h3⟩ := h (6 * i + 3)
  obtain ⟨v4, h4⟩ := h (6 * i + 4)
  obtain ⟨v5, h5⟩ := h (6 * i + 5)
  simp [GenerateShortCode, generateCharsFrom, codeAt, codeCharAt,
    h0, h1, h2, h3, h4, h5, Except.toOption]

/-- The counted store's existence check: answer `e c`, bump the
counter. -/
theorem pureExistsStore_exists (e : String → Bool) (s : Nat) (c : String) :
    (pureExistsStore e).existsByShortCode s c = (.ok (e c), s + 1) := rfl

/-- Loop invariant of the resolver against a pure counted store: while
every attempted code is reported as existing, the loop exhausts its fuel,
performs one existence check per attempt, and ends in the
`after 10 attempts` internal error. -/
theorem resolverAux_all_exist (e : String → Bool)
    (rand : Nat → Except GoErr (Fin 62)) (h : ∀ j, ∃ v, rand j = .ok v) :
    ∀ (fuel i n : Nat), (∀ k, k < fuel → e (codeAt rand (i + k)) = true) →
      generateUniqueShortCodeAux (pureExistsStore e) rand i fuel n =
        (.error (NewInternalError "service.generateUniqueShortCode"
          "failed to generate unique code after 10 attempts" none), n + fuel) := by
  intro fuel
  induction fuel with
  | zero => intro i n _; rfl
  | succ fuel ih =>
    intro i n hall
    have h0 : e (codeAt rand i) = true := by
      have := hall 0 (Nat.succ_pos fuel)
      rwa [Nat.add_zero] at this
    have hrec := ih (i + 1) (n + 1) (fun k hk => by
      have hx := hall (k + 1) (Nat.succ_lt_succ hk)
      have harith : i + (k + 1) = i + 1 + k := by omega
      rwa [harith] at hx)
    have harith : n + 1 + fuel = n + (fuel + 1) := by omega
    rw [harith] at hrec
    simp [generateUniqueShortCodeAux, generate_eq_codeAt rand i h,
      pureExistsStore_exists, h0, hrec]

/-- Loop invariant of the resolver against a pure counted store: when
attempt `k` is the first whose code the store reports as free, the loop
returns that code after exactly `k + 1` existence checks. -/
theorem resolverAux_first_free (e : String → Bool)
    (rand : Nat → Except GoErr (Fin 62)) (h : ∀ j, ∃ v, rand j = .ok v) :
    ∀ (fuel k i n : Nat), k < fuel →
      e (codeAt rand (i + k)) = false →
      (∀ m, m < k → e (codeAt rand (i + m)) = true) →
      generateUniqueShortCodeAux (pureExistsStore e) rand i fuel n =
        (.ok (codeAt rand (i + k)), n + k + 1) := by
  intro fuel
  induction fuel with
  | zero => intro k i n hk; omega
  | succ fuel ih =>
    intro k i n hk hfree hbusy
    cases k with
    | zero =>
      rw [Nat.add_zero] at hfree
      simp [generateUniqueShortCodeAux, generate_eq_codeAt rand i h,
        pureExistsStore_exists, hfree]
    | succ k =>
      have h0 : e (codeAt rand i) = true := by
        have := hbusy 0 (Nat.succ_pos k)
        rwa [Nat.add_zero] at this
      have hfree' : e (codeAt rand (i + 1 + k)) = false := by
        have harith : i + (k + 1) = i + 1 + k := by omega
        rwa [harith] at hfree
      have hrec := ih k (i + 1) (n + 1) (by omega) hfree' (fun m hm => by
        have hx := hbusy (m + 1) (Nat.succ_lt_succ hm)
        have harith : i + (m + 1) = i + 1 + m := by omega
        rwa [harith] at hx)
      have h1 : i + 1 + k = i + (k + 1) := by omega
      have h2 : n + 1 + k + 1 = n + (k + 1) + 1 := by omega
      rw [h1, h2] at hrec
      simp [generateUniqueShortCodeAux, generate_eq_codeAt rand i h,
        pureExistsStore_exists, h0, hrec]

/-- Counterexample to C1 as stated: against the store that reports every
code as existing, the resolver performs ten generate-plus-check cycles,
not at most five; the counted store records ten existence checks. -/
theorem resolveCode_not_five_attempts :
    (generateUniqueShortCode (pureExistsStore (fun _ => true))
      (fun _ => .ok (⟨0, by omega⟩ : Fin 62)) 0).2 = 10 ∧
    ¬ (generateUniqueShortCode (pureExistsStore (fun _ => true))
      (fun _ => .ok (⟨0, by omega⟩ : Fin 62)) 0).2 ≤ 5 := by
  constructor
  · rfl
  · intro hle
    rw [show (generateUniqueShortCode (pureExistsStore (fun _ => true))
      (fun _ => .ok (⟨0, by omega⟩ : Fin 62)) 0).2 = 10 from rfl] at hle
    omega

/-- C1 amended: for every create request without a custom code, when the
random source does not fail, the resolver performs at most 10
generate-plus-existence-check cycles (the loop in
`generateUniqueShortCode` hard-codes 10; the unused `constants.MaxRetries`
is 5); if every generated code is reported as existing by the store it
fails with an `InternalError` after exactly 10 attempts, and otherwise it
returns the first generated code whose existence check reports false. -/
theorem resolveCode_retry_behaviour (e : String → Bool)
    (rand : Nat → Except GoErr (Fin 62)) (n : Nat)
    (h : ∀ j, ∃ v, rand j = .ok v) :
    ((∀ c, e c = true) →
      generateUniqueShortCode (pureExistsStore e) rand n =
        (.error (NewInternalError "service.generateUniqueShortCode"
          "failed to generate unique code after 10 attempts" none), n + 10)) ∧
    (∀ k, k < 10 → e (codeAt rand k) = false →
      (∀ m, m < k → e (codeAt rand m) = true) →
      generateUniqueShortCode (pureExistsStore e) rand n =
        (.ok (codeAt rand k), n + k + 1)) ∧
    (generateUniqueShortCode (pureExistsStore e) rand n).2 ≤ n + 10 := by
  refine ⟨?_, ?_, ?_⟩
  · intro hall
    exact resolverAux_all_exist e rand h 10 0 n (fun k _ => hall _)
  · intro k hk hfree hbusy
    have := resolverAux_first_free e rand h 10 k 0 n hk
      (by rwa [Nat.zero_add]) (fun m hm => by rw [Nat.zero_add]; exact hbusy m hm)
    rwa [Nat.zero_add] at this
  · by_cases hex : ∃ k, k < 10 ∧ e (codeAt rand k) = false
    · obtain ⟨k0, hk0, hfree0⟩ := hex
      have hfind : ∃ k, e (codeAt rand k) = false := ⟨k0, hfree0⟩
      set km := Nat.find hfind with hkm
      have hkmfree : e (codeAt rand km) = false := Nat.find_spec hfind
      have hkmlt : km < 10 := by
        have : km ≤ k0 := Nat.find_le hfree0
        omega
      have hbusy : ∀ m, m < km → e (codeAt rand m) = true := by
        intro m hm
        have := Nat.find_min hfind hm
        simpa using this
      have heq := resolverAux_first_free e rand h 10 km 0 n hkmlt
        (by rwa [Nat.zero_add]) (fun m hm => by rw [Nat.zero_add]; exact hbusy m hm)
      rw [generateUniqueShortCode, heq]
      simp only []
      omega
    · push_neg at hex
      have hall : ∀ k, k < 10 → e (codeAt rand (0 + k)) = true := by
        intro k hk
        rw [Nat.zero_add]
        rcases Bool.eq_false_or_eq_true (e (codeAt rand k)) with ht | hf
        · exact ht
        · exact absurd hf (hex k hk)
      rw [generateUniqueShortCode, resolverAux_all_exist e rand h 10 0 n hall]

/-- Witness for C1 (amended): with the all-collisions store and a
constant random source, the resolver from counter 0 ends in the
`after 10 attempts` internal error with exactly 10 recorded existence
checks. -/
theorem resolveCode_retry_behaviour_witness :
    generateUniqueShortCode (pureExistsStore (fun _ => true))
      (fun _ => .ok (⟨1, by omega⟩ : Fin 62)) 0 =
      (.error (NewInternalError "service.generateUniqueShortCode"
        "failed to generate unique code after 10 attempts" none), 0 + 10) :=
  (resolveCode_retry_behaviour (fun _ => true)
    (fun _ => .ok (⟨1, by omega⟩ : Fin 62)) 0
    (fun _ => ⟨⟨1, by omega⟩, rfl⟩)).1 (fun _ => rfl)

/-- C2: on the custom-code path, a shape-valid code whose single
existence check reports false is handed to persistence create unchanged
and returned unchanged in the response; and the repository existence
check translates a `NotFoundError` from the underlying lookup into the
boolean false (not an error) while any other lookup error propagates.
The service conclusion is fully determined by one `existsByShortCode`
application and the subsequent `create`, which formalises "exactly one
existence check". -/
theorem create_custom_free_translation {σ : Type} :
    (∀ (repo : Repo σ) (rand : Nat → Except GoErr (Fin 62)) (s s₁ s₂ : σ)
        (u cc : String) (a : CreateAssigned),
      ValidateURL u = none → ValidateShortCode cc = none →
      repo.existsByShortCode s cc = (.ok false, s₁) →
      repo.create s₁ ⟨"", u, cc, 0, 0, 0⟩ = (.ok a, s₂) →
      CreateShortURL repo rand s ⟨u, some cc⟩ =
        (.ok ⟨a.id, u, cc, a.created, a.updated⟩, s₂)) ∧
    (∀ (repo : Repo σ) (rand : Nat → Except GoErr (Fin 62)) (s s₁ s₂ : σ)
        (u cc : String) (e : GoErr),
      ValidateURL u = none → ValidateShortCode cc = none →
      repo.existsByShortCode s cc = (.ok false, s₁) →
      repo.create s₁ ⟨"", u, cc, 0, 0, 0⟩ = (.error e, s₂) →
      CreateShortURL repo rand s ⟨u, some cc⟩ =
        (.error e, s₂)) ∧
    (∀ (get : σ → String → Except GoErr ShortURL × σ) (s s₁ : σ)
        (code op msg : String),
      get s code = (.error (NewNotFoundError op msg), s₁) →
      ExistsByShortCode get s code = (.ok false, s₁)) ∧
    (∀ (get : σ → String → Except GoErr ShortURL × σ) (s s₁ : σ)
        (code : String) (e : GoErr),
      get s code = (.error e, s₁) → e.errorCode ≠ some .notFound →
      ExistsByShortCode get s code = (.error e, s₁)) ∧
    (∀ (get : σ → String → Except GoErr ShortURL × σ) (s s₁ : σ)
        (code : String) (r : ShortURL),
      get s code = (.ok r, s₁) →
      ExistsByShortCode get s code = (.ok true, s₁)) := by
  refine ⟨?_, ?_, ?_, ?_, ?_⟩
  · intro repo rand s s₁ s₂ u cc a hvu hvc hex hc
    simp [CreateShortURL, hvu, hvc, hex, hc]
  · intro repo rand s s₁ s₂ u cc e hvu hvc hex hc
    simp [CreateShortURL, hvu, hvc, hex, hc]
  · intro get s s₁ code op msg hget
    simp [ExistsByShortCode, hget, NewNotFoundError]
  · intro get s s₁ code e hget hnf
    cases e with
    | svc op c m k =>
      have hc : ¬ c = ErrorCode.notFound := by
        intro hcc
        exact hnf (by simp [GoErr.errorCode, hcc])
      simp [ExistsByShortCode, hget, hc]
    | ext t => simp [ExistsByShortCode, hget]
  · intro get s s₁ code r hget
    simp [ExistsByShortCode, hget]

/-- Witness for C2: against the counted empty store, creating
`https://example.com/a` with custom code `golang` succeeds with the code
unchanged; the final counter 101 records exactly one existence check
(+1) and one create (+100). -/
theorem create_custom_free_translation_witness :
    CreateShortURL emptyStore (fun _ => .ok (⟨0, by omega⟩ : Fin 62)) 0
      { url := "https://example.com/a", customCode := some "golang" } =
      (.ok { id := "rec1", url := "https://example.com/a", shortCode := "golang",
             createdAt := 5, updatedAt := 6 }, 101) :=
  create_custom_free_translation.1 emptyStore _ 0 1 101
    "https://example.com/a" "golang" { id := "rec1", created := 5, updated := 6 }
    rfl rfl rfl rfl

/-- C3: on the custom-code path, a shape-valid code that already exists
fails with `DuplicateError` and never invokes persistence create
(replacing `create` changes nothing); a failing existence check fails
with `InternalError` wrapping the cause. -/
theorem create_custom_duplicate_no_create {σ : Type} :
    (∀ (repo : Repo σ) (rand : Nat → Except GoErr (Fin 62)) (s s₁ : σ)
        (u cc : String),
      ValidateURL u = none → ValidateShortCode cc = none →
      repo.existsByShortCode s cc = (.ok true, s₁) →
      CreateShortURL repo rand s ⟨u, some cc⟩ =
        (.error (NewDuplicateError "service.CreateShortURL"
          "short code already exists"), s₁)) ∧
    (∀ (repo : Repo σ) (c : σ → ShortURL → Except GoErr CreateAssigned × σ)
        (rand : Nat → Except GoErr (Fin 62)) (s s₁ : σ) (u cc : String),
      ValidateURL u = none → ValidateShortCode cc = none →
      repo.existsByShortCode s cc = (.ok true, s₁) →
      CreateShortURL { repo with create := c } rand s ⟨u, some cc⟩ =
        CreateShortURL repo rand s ⟨u, some cc⟩) ∧
    (∀ (repo : Repo σ) (rand : Nat → Except GoErr (Fin 62)) (s s₁ : σ)
        (u cc : String) (e : GoErr),
      ValidateURL u = none → ValidateShortCode cc = none →
      repo.existsByShortCode s cc = (.error e, s₁) →
      CreateShortURL repo rand s ⟨u, some cc⟩ =
        (.error (NewInternalError "service.CreateShortURL"
          "failed to check code existence" (some e)), s₁)) := by
  refine ⟨?_, ?_, ?_⟩
  · intro repo rand s s₁ u cc hvu hvc hex
    simp [CreateShortURL, hvu, hvc, hex]
  · intro repo c rand s s₁ u cc hvu hvc hex
    have hex' : Repo.existsByShortCode { repo with create := c } s cc =
        (.ok true, s₁) := hex
    simp [CreateShortURL, hvu, hvc, hex, hex']
  · intro repo rand s s₁ u cc e hvu hvc hex
    simp [CreateShortURL, hvu, hvc, hex]

/-- Witness for C3: against the all-collisions store, creating
`https://example.com/a` with custom code `golang` fails with
`DuplicateError`; the final counter 1 records the single existence check
and no create. -/
theorem create_custom_duplicate_no_create_witness :
    CreateShortURL (pureExistsStore (fun _ => true))
      (fun _ => .ok (⟨0, by omega⟩ : Fin 62)) 0
      { url := "https://example.com/a", customCode := some "golang" } =
      (.error (NewDuplicateError "service.CreateShortURL"
        "short code already exists"), 1) :=
  create_custom_duplicate_no_create.1 (pureExistsStore (fun _ => true)) _ 0 1
    "https://example.com/a" "golang" rfl rfl rfl

/-- C9: every failure of URL validation, custom-code shape validation,
the custom-code existence check or auto-generation short-circuits
`CreateShortURL` with that step's error; the conclusion of each failure
case is fully determined with `repo.create` unconstrained, so persistence
create is never invoked on such a failure; and on the successful paths
the record handed to persistence carries the validated URL, the resolved
code and access count 0, with the persisted assignment returned. -/
theorem create_short_circuits {σ : Type} :
    (∀ (repo : Repo σ) (rand : Nat → Except GoErr (Fin 62)) (s : σ)
        (u : String) (oc : Option String) (e : GoErr),
      ValidateURL u = some e →
      CreateShortURL repo rand s ⟨u, oc⟩ = (.error e, s)) ∧
    (∀ (repo : Repo σ) (rand : Nat → Except GoErr (Fin 62)) (s : σ)
        (u cc : String) (e : GoErr),
      ValidateURL u = none → ValidateShortCode cc = some e →
      CreateShortURL repo rand s ⟨u, some cc⟩ = (.error e, s)) ∧
    (∀ (repo : Repo σ) (rand : Nat → Except GoErr (Fin 62)) (s s₁ : σ)
        (u cc : String) (e : GoErr),
      ValidateURL u = none → ValidateShortCode cc = none →
      repo.existsByShortCode s cc = (.error e, s₁) →
      CreateShortURL repo rand s ⟨u, some cc⟩ =
        (.error (NewInternalError "service.CreateShortURL"
          "failed to check code existence" (some e)), s₁)) ∧
    (∀ (repo : Repo σ) (rand : Nat → Except GoErr (Fin 62)) (s s₁ : σ)
        (u : String) (e : GoErr),
      ValidateURL u = none →
      generateUniqueShortCode repo rand s = (.error e, s₁) →
      CreateShortURL repo rand s ⟨u, none⟩ =
        (.error (NewInternalError "service.CreateShortURL"
          "failed to generate short code" (some e)), s₁)) ∧
    (∀ (repo : Repo σ) (rand : Nat → Except GoErr (Fin 62)) (s s₁ s₂ : σ)
        (u code : String) (a : CreateAssigned),
      ValidateURL u = none →
      generateUniqueShortCode repo rand s = (.ok code, s₁) →
      repo.create s₁ ⟨"", u, code, 0, 0, 0⟩ = (.ok a, s₂) →
      CreateShortURL repo rand s ⟨u, none⟩ =
        (.ok ⟨a.id, u, code, a.created, a.updated⟩, s₂)) ∧
    (∀ (repo : Repo σ) (rand : Nat → Except GoErr (Fin 62)) (s s₁ : σ)
        (u cc : String),
      ValidateShortCode cc = none →
      repo.existsByShortCode s cc = (.ok false, s₁) →
      ∀ (e : GoErr), ValidateURL u = some e →
      ∀ (c : σ → ShortURL → Except GoErr CreateAssigned × σ),
        CreateShortURL { repo with create := c } rand s ⟨u, some cc⟩ =
          (.error e, s)) := by
  refine ⟨?_, ?_, ?_, ?_, ?_, ?_⟩
  · intro repo rand s u oc e hvu
    simp [CreateShortURL, hvu]
  · intro repo rand s u cc e hvu hvc
    simp [CreateShortURL, hvu, hvc]
  · intro repo rand s s₁ u cc e hvu hvc hex
    simp [CreateShortURL, hvu, hvc, hex]
  · intro repo rand s s₁ u e hvu hgen
    simp [CreateShortURL, hvu, hgen]
  · intro repo rand s s₁ s₂ u code a hvu hgen hc
    simp [CreateShortURL, hvu, hgen, hc]
  · intro repo rand s s₁ u cc hvc hex e hvu c
    simp [CreateShortURL, hvu]

/-- Witness for C9: an invalid URL (`ftp` scheme) against the counted
empty store fails with the scheme validation error and leaves the counter
at 0: no persistence call happened. -/
theorem create_short_circuits_witness :
    CreateShortURL emptyStore (fun _ => .ok (⟨0, by omega⟩ : Fin 62)) 0
      ⟨"ftp://example.com", some "golang"⟩ =
      (.error (NewValidationError "validator.ValidateURL"
        "only HTTP and HTTPS URLs are allowed" none), 0) :=
  create_short_circuits.1 emptyStore _ 0 "ftp://example.com" (some "golang")
    (NewValidationError "validator.ValidateURL"
      "only HTTP and HTTPS URLs are allowed" none) rfl

/-- C10: the read, update, delete and statistics operations apply no
short-code shape validation: even for a code the creation-time validator
rejects, the code is forwarded verbatim to persistence and the
persistence outcome (such as the repository's `NotFoundError`) is the
operation's outcome, not a `ValidationError`. -/
theorem crud_codes_unvalidated {σ : Type} :
    (∀ (repo : Repo σ) (s s₁ : σ) (code : String) (ev eg : GoErr),
      ValidateShortCode code = some ev →
      repo.getByShortCode s code = (.error eg, s₁) →
      GetOriginalURL repo s code = (.error eg, s₁)) ∧
    (∀ (repo : Repo σ) (s s₁ : σ) (code : String) (ev eg : GoErr),
      ValidateShortCode code = some ev →
      repo.getByShortCode s code = (.error eg, s₁) →
      GetStatistics repo s code = (.error eg, s₁)) ∧
    (∀ (repo : Repo σ) (s : σ) (code : String),
      DeleteShortURL repo s code = repo.delete s code) ∧
    (∀ (repo : Repo σ) (s s₁ : σ) (code : String) (ev eu : GoErr)
        (req : UpdateURLRequest),
      ValidateShortCode code = some ev → ValidateURL req.url = none →
      repo.update s code req.url = (.error eu, s₁) →
      UpdateShortURL repo s code req = (.error eu, s₁)) := by
  refine ⟨?_, ?_, ?_, ?_⟩
  · intro repo s s₁ code ev eg _ hget
    simp [GetOriginalURL, hget]
  · intro repo s s₁ code ev eg _ hget
    simp [GetStatistics, hget]
  · intro repo s code
    rfl
  · intro repo s s₁ code ev eu req _ hvu hup
    simp [UpdateShortURL, hvu, hup]

/-- Witness for C10: reading the shape-invalid code `"ab"` against the
counted empty store yields the repository's `NotFoundError` (kind
`notFound`, not `validation`), with the counter recording the forwarded
lookup. -/
theorem crud_codes_unvalidated_witness :
    GetOriginalURL emptyStore 0 "ab" =
      (.error (NewNotFoundError "repository.GetByShortCode"
        "short URL not found"), 1) :=
  crud_codes_unvalidated.1 emptyStore 0 1 "ab"
    (NewValidationError "validator.ValidateShortCode"
      "short code must be between 4 and 20 characters" none)
    (NewNotFoundError "repository.GetByShortCode" "short URL not found")
    rfl rfl

end UrlShortener
